import Mathlib

/-!
Verification of the pi-pkm-mode extension (src/extensions/pi-pkm-mode.ts).

The extension is a single-file mode controller: it keeps a `PkmModeState`
record (an enabled flag, a resolved prompt string, and a provenance label),
reacts to a `/pkm` command, reconciles state at session start from a startup
flag and the persisted entry log, and appends its prompt to the system prompt
on `before_agent_start`.

This file shallowly embeds that controller:
  * pure string helpers (`stripTripleQuotes`, `dedent`,
    `extractPiPkmPromptFromPython`) are translated directly;
  * the JavaScript regular expressions are embedded as executable scanners
    over `List Char` with the same leftmost-match and ordered-alternation
    behaviour;
  * the file system (`existsSync` / `readFileSync`) is a record of total
    functions, where `read = none` models a thrown read error;
  * each event handler becomes a pure function from its inputs and the
    current state to the new state plus a list of host-API `Effect`s
    (append entry, set status, notify, send user message).
-/

set_option maxRecDepth 10000

/-- Built-in default PKM prompt (the `DEFAULT_PI_PKM_PROMPT` constant). -/
def DEFAULT_PI_PKM_PROMPT : String :=
"You are an expert personal knowledge manager.
Your goal is to help me organize my thoughts, ideas, and knowledge into a structured set of files.
You will be creating and editing markdown files.
When I share ideas with you, you should help me clarify them and then save them to the appropriate files.
You can ask me questions to better understand where to save the information or how to structure it.
Focus on creating a well-organized and easy-to-navigate knowledge base.
Do not write code unless I explicitly ask you to."

/-- The assignment-name candidates `PKM_PROMPT_ASSIGNMENT_CANDIDATES`, in
their source order (the order is the regex alternation order). -/
def PKM_PROMPT_ASSIGNMENT_CANDIDATES : List String :=
["pkm_system", "main_system", "system_prompt", "system", "prompt"]

/-- A resolved prompt: text plus a provenance label (`ResolvedPiPkmPrompt`). -/
structure ResolvedPiPkmPrompt where
  prompt : String
  source : String
deriving DecidableEq, Repr

/-- The mutable extension state (`PkmModeState`). -/
structure PkmModeState where
  enabled : Bool
  prompt : String
  promptSource : String
deriving DecidableEq, Repr

/-- Whitespace in the sense of the JavaScript `\s` character class,
restricted to its ASCII members (space, tab, newline, carriage return,
vertical tab, form feed). -/
def isWsChar (c : Char) : Bool :=
  c = ' ' || c = '\t' || c = '\n' || c = '\r' || c = Char.ofNat 11 || c = Char.ofNat 12

/-- The double-quote character. -/
def dquoteChar : Char := Char.ofNat 34

/-- The single-quote character. -/
def squoteChar : Char := Char.ofNat 39

/-- The opening/closing delimiter of a Python triple-double-quoted string. -/
def tripleDQuote : List Char := [dquoteChar, dquoteChar, dquoteChar]

/-- The opening/closing delimiter of a Python triple-single-quoted string. -/
def tripleSQuote : List Char := [squoteChar, squoteChar, squoteChar]

/-- A Python string-literal prefix character (`[rRuUbBfF]`). -/
def isPyStringPrefixChar (c : Char) : Bool :=
  c = 'r' || c = 'R' || c = 'u' || c = 'U' || c = 'b' || c = 'B' || c = 'f' || c = 'F'

/-- JavaScript `String.prototype.trim`, modelled on the character list:
drop the whitespace run at both ends. -/
def jsTrim (s : String) : String :=
  String.mk (((s.data.dropWhile isWsChar).reverse.dropWhile isWsChar).reverse)

/-- Lower-case one character (the effect of `toLowerCase` on ASCII). -/
def jsLowerChar (c : Char) : Char :=
  if 'A' ≤ c && c ≤ 'Z' then Char.ofNat (c.toNat + 32) else c

/-- JavaScript `String.prototype.toLowerCase`, restricted to ASCII. -/
def jsToLower (s : String) : String :=
  String.mk (s.data.map jsLowerChar)

/-- `stripTripleQuotes`: drop matching triple-quote delimiters from both ends
(the JavaScript `value.slice(3, -3)`). -/
def stripTripleQuotes (value : String) : String :=
  let v := value.data
  if tripleDQuote.isPrefixOf v && tripleDQuote.isSuffixOf v then
    String.mk ((v.drop 3).take (v.length - 6))
  else if tripleSQuote.isPrefixOf v && tripleSQuote.isSuffixOf v then
    String.mk ((v.drop 3).take (v.length - 6))
  else value

/-- Length of the leading whitespace run of a line (the JavaScript
`line.match(/^\s*/)[0].length`). -/
def leadingWsCount (line : String) : Nat :=
  (line.data.takeWhile isWsChar).length

/-- Replace every CRLF pair by a lone LF, scanning left to right (the
JavaScript `value.replace(/\r\n/g, "\n")`). -/
def replaceCrLf : List Char → List Char
  | [] => []
  | [c] => [c]
  | c :: d :: rest =>
    if c = '\r' && d = '\n' then '\n' :: replaceCrLf rest
    else c :: replaceCrLf (d :: rest)

/-- Split a character list at every occurrence of `sep` (the JavaScript
`value.split("\n")`: the empty input yields one empty line). -/
def splitOnChar (sep : Char) : List Char → List (List Char)
  | [] => [[]]
  | c :: rest =>
    if c = sep then [] :: splitOnChar sep rest
    else
      match splitOnChar sep rest with
      | line :: more => (c :: line) :: more
      | [] => [[c]]

/-- `dedent`: normalize line endings, drop the leading and trailing blank
lines, remove the common leading indentation, and trim the result. -/
def dedent (value : String) : String :=
  let lines0 := (splitOnChar '\n' (replaceCrLf value.data)).map String.mk
  let lines1 := lines0.dropWhile (fun l => jsTrim l = "")
  let lines2 := (lines1.reverse.dropWhile (fun l => jsTrim l = "")).reverse
  match (lines2.filter (fun l => jsTrim l ≠ "")).map leadingWsCount with
  | [] => ""
  | i :: is =>
    let minIndent := is.foldl Nat.min i
    jsTrim (String.mk
      (List.intercalate ['\n'] (lines2.map (fun l => l.data.drop minIndent))))

/-- Split a character stream at the first occurrence of `delim`, returning
the characters before it and those after it; `none` when `delim` never
occurs. This realizes the non-greedy `[\s\S]*?` up to the closing
delimiter. -/
def splitAtClose (delim : List Char) : List Char → Option (List Char × List Char)
  | [] => none
  | c :: rest =>
    if delim.isPrefixOf (c :: rest) then some ([], (c :: rest).drop delim.length)
    else
      match splitAtClose delim rest with
      | some (pre, rem) => some (c :: pre, rem)
      | none => none

/-- Match a complete triple-quoted block starting exactly at the head of `l`,
returning the block including its delimiters (the captured group of
`TRIPLE_QUOTE_BLOCK_RE` and of the assignment regex). -/
def matchTripleBlock (l : List Char) : Option (List Char) :=
  if tripleDQuote.isPrefixOf l then
    match splitAtClose tripleDQuote (l.drop 3) with
    | some (body, _) => some (tripleDQuote ++ body ++ tripleDQuote)
    | none => none
  else if tripleSQuote.isPrefixOf l then
    match splitAtClose tripleSQuote (l.drop 3) with
    | some (body, _) => some (tripleSQuote ++ body ++ tripleSQuote)
    | none => none
  else none

/-- Match `(?:[rRuUbBfF]{0,2})?` greedily (two, then one, then zero prefix
characters) followed by a triple-quoted block. -/
def matchPrefixedBlock (l : List Char) : Option (List Char) :=
  match l with
  | a :: b :: rest =>
    if isPyStringPrefixChar a && isPyStringPrefixChar b then
      match matchTripleBlock rest with
      | some blk => some blk
      | none =>
        if isPyStringPrefixChar a then
          match matchTripleBlock (b :: rest) with
          | some blk => some blk
          | none => matchTripleBlock (a :: b :: rest)
        else matchTripleBlock (a :: b :: rest)
    else if isPyStringPrefixChar a then
      match matchTripleBlock (b :: rest) with
      | some blk => some blk
      | none => matchTripleBlock (a :: b :: rest)
    else matchTripleBlock (a :: b :: rest)
  | l => matchTripleBlock l

/-- Skip the (possibly empty) leading whitespace run (`\s*`). -/
def skipWs (l : List Char) : List Char := l.dropWhile isWsChar

/-- Match one assignment-name candidate followed by `\s*=\s*` and a
(possibly prefixed) triple-quoted block, at the head of `l`. -/
def matchNameAssign (name : List Char) (l : List Char) : Option (List Char) :=
  if name.isPrefixOf l then
    match skipWs (l.drop name.length) with
    | c :: l2 => if c = '=' then matchPrefixedBlock (skipWs l2) else none
    | [] => none
  else none

/-- Try the assignment-name candidates in alternation order at the head of
`l` (after the `\s*` of the assignment regex has been skipped). -/
def matchAssignAt (cands : List (List Char)) (l : List Char) : Option (List Char) :=
  match cands with
  | [] => none
  | n :: rest =>
    match matchNameAssign n l with
    | some blk => some blk
    | none => matchAssignAt rest l

/-- Leftmost-match scan for the assignment regex: at every position that is
the start of the content or directly after a newline (`(?:^|\n)`), skip
`\s*` and try the candidates. -/
def scanAssign (cands : List (List Char)) : Bool → List Char → Option (List Char)
  | atLineStart, l =>
    match (if atLineStart then matchAssignAt cands (skipWs l) else none) with
    | some blk => some blk
    | none =>
      match l with
      | [] => none
      | c :: rest => scanAssign cands (c = '\n') rest

/-- Leftmost-match scan for `TRIPLE_QUOTE_BLOCK_RE`: the first closable
triple-quoted block of the content. -/
def findFirstTripleBlock : List Char → Option (List Char)
  | [] => none
  | c :: rest =>
    match matchTripleBlock (c :: rest) with
    | some blk => some blk
    | none => findFirstTripleBlock rest

/-- `extractPiPkmPromptFromPython`: prefer a triple-quoted block assigned to
one of the candidate names; otherwise fall back to the first triple-quoted
block; in either case strip the delimiters and dedent. `none` when the
content has no block at all. -/
def extractPiPkmPromptFromPython (content : String) : Option String :=
  let cs := content.data
  match scanAssign (PKM_PROMPT_ASSIGNMENT_CANDIDATES.map String.data) true cs with
  | some blk => some (dedent (stripTripleQuotes (String.mk blk)))
  | none =>
    match findFirstTripleBlock cs with
    | some blk => some (dedent (stripTripleQuotes (String.mk blk)))
    | none => none

/-- Join path segments with a separator (models `node:path.join`). -/
def pathJoin (parts : List String) : String :=
  String.mk (List.intercalate ['/'] (parts.map String.data))

/-- `getDefaultPiPkmPromptPaths`, parameterized by the home directory. -/
def getDefaultPiPkmPromptPaths (homedir : String) : List String :=
  let promptSourceRoot := pathJoin [homedir, "code", "aiderx", "aider"]
  [ pathJoin [promptSourceRoot, "extensions", "handlers", "pkm_handler.py"],
    pathJoin [promptSourceRoot, "coders", "pkm_prompts.py"],
    pathJoin [promptSourceRoot, "coders", "pkm_coder.py"] ]

/-- `normalizePromptPath`: trim and expand a leading tilde against the home
directory. -/
def normalizePromptPath (homedir : String) (path : String) : String :=
  let trimmed := jsTrim path
  if trimmed = "~" then homedir
  else if ['~', '/'].isPrefixOf trimmed.data then
    pathJoin [homedir, String.mk (trimmed.data.drop 2)]
  else if ['~'].isPrefixOf trimmed.data then
    pathJoin [homedir, String.mk (trimmed.data.drop 1)]
  else trimmed

/-- The file system visible to the extension: `pathExists` models
`existsSync`; `read` models `readFileSync`, with `none` standing for a
thrown read error (the `catch` branch). -/
structure FS where
  pathExists : String → Bool
  read : String → Option String

/-- One candidate iteration of the `resolvePiPkmPrompt` loop body: `none`
means the iteration falls through to the next candidate (missing file,
failed read, or no non-empty extracted block). -/
def tryCandidate (fs : FS) (homedir : String) (path : String) :
    Option ResolvedPiPkmPrompt :=
  let promptPath := normalizePromptPath homedir path
  if fs.pathExists promptPath then
    match fs.read promptPath with
    | some content =>
      match extractPiPkmPromptFromPython content with
      | some extractedPrompt =>
        if 0 < extractedPrompt.length then
          some { prompt := extractedPrompt, source := promptPath }
        else none
      | none => none
    | none => none
  else none

/-- `resolvePiPkmPrompt`: first candidate that yields a non-empty extracted
block wins; otherwise the built-in default with source `builtin-default`. -/
def resolvePiPkmPrompt (fs : FS) (homedir : String) :
    List String → ResolvedPiPkmPrompt
  | [] => { prompt := DEFAULT_PI_PKM_PROMPT, source := "builtin-default" }
  | path :: rest =>
    match tryCandidate fs homedir path with
    | some resolved => resolved
    | none => resolvePiPkmPrompt fs homedir rest

/-- The `enabled` field of a persisted entry's data object: either a definite
boolean or a value of some other type. -/
inductive EnabledField where
  | bool (b : Bool)
  | nonBool
deriving DecidableEq, Repr

/-- The `data` payload of a session entry: `absent` covers `undefined`,
`null`, and every non-object value (the `!data || typeof data !== "object"`
test); `obj` is an object with an optional `enabled` field. -/
inductive EntryData where
  | absent
  | obj (enabled : Option EnabledField)
deriving DecidableEq, Repr

/-- A session-log entry as seen by `parsePkmModeEntry` (the cast
`{ type?: string; customType?: string; data?: unknown }`). -/
structure Entry where
  etype : Option String
  customType : Option String
  data : EntryData
deriving DecidableEq, Repr

/-- Whether the backward scan considers an entry a pkm-mode record
(`entry.type === "custom" && entry.customType === "pkm-mode"`). -/
def entryMatchesPkm (e : Entry) : Bool :=
  e.etype = some "custom" && e.customType = some "pkm-mode"

/-- What `parsePkmModeEntry` reads out of a matching entry: `some b` when
`data` is an object whose `enabled` field is the boolean `b`, and `none`
(JavaScript `undefined`) otherwise. -/
def entryEnabledValue (e : Entry) : Option Bool :=
  match e.data with
  | EntryData.obj (some (EnabledField.bool b)) => some b
  | _ => none

/-- The backward loop of `parsePkmModeEntry`, expressed as a forward scan
over the reversed entry list: skip non-matching entries; at the first
matching entry return its `enabled` reading and stop. -/
def scanPkmBack : List Entry → Option Bool
  | [] => none
  | e :: rest =>
    if entryMatchesPkm e then entryEnabledValue e else scanPkmBack rest

/-- `parsePkmModeEntry`: the `enabled` reading of the most recent pkm-mode
record, `none` when there is none or its data is malformed. -/
def parsePkmModeEntry (entries : List Entry) : Option Bool :=
  scanPkmBack entries.reverse

/-- The entry appended by `persistState` via `pi.appendEntry("pkm-mode",
{ enabled })`: a custom entry with customType `pkm-mode` and data
`{enabled: b}`. -/
def mkPkmEntry (b : Bool) : Entry :=
  { etype := some "custom", customType := some "pkm-mode",
    data := EntryData.obj (some (EnabledField.bool b)) }

/-- A host-API side effect issued by a handler. `setStatus enabled` models
`ctx.ui.setStatus("pkm-mode", enabled ? themed "PKM" : undefined)`;
`notify` carries the message and the optional severity argument;
`appendEntry` models `pi.appendEntry(customType, { enabled })`. -/
inductive Effect where
  | appendEntry (customType : String) (enabled : Bool)
  | setStatus (enabled : Bool)
  | notify (message : String) (kind : Option String)
  | sendUserMessage (text : String)
deriving DecidableEq, Repr

/-- `updateStatus`: emits the status update only when the host has a UI. -/
def updateStatusFx (hasUI : Bool) (enabled : Bool) : List Effect :=
  if hasUI then [Effect.setStatus enabled] else []

/-- The shared tail of the non-status, non-free-text command branches:
persist the new boolean, update the status indicator, and (with a UI)
notify; the disabled notification does not mention the prompt source. -/
def finishToggle (s : PkmModeState) (hasUI : Bool) : PkmModeState × List Effect :=
  (s,
    [Effect.appendEntry "pkm-mode" s.enabled] ++ updateStatusFx hasUI s.enabled ++
    (if hasUI then
      [Effect.notify
        (if s.enabled then "PKM mode enabled (" ++ s.promptSource ++ ")"
         else "PKM mode disabled") (some "info")]
     else []))

/-- The `/pkm` command handler: dispatch on the trimmed, lower-cased
argument (`status`, the on-words, the off-words, non-empty free text, or
the empty toggle), returning the new state and the host effects in
issue order. -/
def pkmCommandHandler (args : String) (hasUI : Bool) (state : PkmModeState) :
    PkmModeState × List Effect :=
  let normalized := jsToLower (jsTrim args)
  if normalized = "status" then
    (state,
      (if hasUI then
        [Effect.notify
          ("PKM mode " ++ (if state.enabled then "enabled" else "disabled") ++
           ". Prompt: " ++ state.promptSource) none]
       else []) ++ updateStatusFx hasUI state.enabled)
  else if normalized = "on" ∨ normalized = "enable" ∨ normalized = "enabled" then
    finishToggle { state with enabled := true } hasUI
  else if normalized = "off" ∨ normalized = "disable" ∨ normalized = "disabled" then
    finishToggle { state with enabled := false } hasUI
  else if 0 < normalized.length then
    ({ state with enabled := true },
      [Effect.appendEntry "pkm-mode" true] ++ updateStatusFx hasUI true ++
      (if hasUI then
        [Effect.notify ("PKM mode enabled (" ++ state.promptSource ++ ")") (some "info")]
       else []) ++
      [Effect.sendUserMessage (jsTrim args)])
  else
    finishToggle { state with enabled := !state.enabled } hasUI

/-- The custom prompt path derived from the `pkm-prompt-path` flag value:
present only when the flag is a string with non-empty trimmed text. -/
def customPromptPath (flagVal : Option String) : Option String :=
  match flagVal with
  | some s => if jsTrim s = "" then none else some (jsTrim s)
  | none => none

/-- The candidate path list used by `resolvePrompt`: the custom path (when
set) ahead of the defaults. -/
def resolvePromptPaths (homedir : String) (flagVal : Option String) : List String :=
  match customPromptPath flagVal with
  | some p => p :: getDefaultPiPkmPromptPaths homedir
  | none => getDefaultPiPkmPromptPaths homedir

/-- The `session_start` handler's state transition: re-resolve the prompt,
seed `enabled` from the `--pkm` flag, then let the most recent persisted
pkm-mode record (when readable) override. -/
def sessionStart (fs : FS) (homedir : String) (pkmFlag : Bool)
    (promptPathFlag : Option String) (entries : List Entry)
    (state : PkmModeState) : PkmModeState :=
  let resolved := resolvePiPkmPrompt fs homedir (resolvePromptPaths homedir promptPathFlag)
  let s1 : PkmModeState :=
    { state with prompt := resolved.prompt, promptSource := resolved.source }
  let s2 : PkmModeState := if pkmFlag then { s1 with enabled := true } else s1
  match parsePkmModeEntry entries with
  | some persistedEnabled => { s2 with enabled := persistedEnabled }
  | none => s2

/-- The `before_agent_start` handler as a system-prompt transformation:
disabled returns `undefined` (prompt unchanged); enabled returns the input
followed by a blank line and the resolved prompt. -/
def beforeAgentStart (state : PkmModeState) (systemPrompt : String) : String :=
  if state.enabled then systemPrompt ++ "\n\n" ++ state.prompt
  else systemPrompt

/-- The state created by `piPkmModeExtension` before any event fires. -/
def initState : PkmModeState :=
  { enabled := false, prompt := DEFAULT_PI_PKM_PROMPT,
    promptSource := "builtin-default" }

/-- A string has positive length exactly when it is not the empty string. -/
theorem string_pos_iff_ne_empty (s : String) : 0 < s.length ↔ s ≠ "" := by
  constructor
  · intro h he
    subst he
    exact absurd h (by decide)
  · intro h
    obtain ⟨l⟩ := s
    cases l with
    | nil => exact absurd rfl h
    | cons c cs => exact Nat.succ_pos cs.length

/-- The backward scan ignores a block of non-matching entries. -/
theorem scanPkmBack_append_none (l rest : List Entry)
    (h : ∀ e ∈ l, entryMatchesPkm e = false) :
    scanPkmBack (l ++ rest) = scanPkmBack rest := by
  induction l with
  | nil => rfl
  | cons e l ih =>
    have he := h e (List.mem_cons_self e l)
    simp [scanPkmBack, he, ih (fun x hx => h x (List.mem_cons_of_mem e hx))]

/-- `parsePkmModeEntry` reads exactly the most recent matching record. -/
theorem parsePkmModeEntry_last_match (pre post : List Entry) (e : Entry)
    (he : entryMatchesPkm e = true)
    (hpost : ∀ x ∈ post, entryMatchesPkm x = false) :
    parsePkmModeEntry (pre ++ e :: post) = entryEnabledValue e := by
  unfold parsePkmModeEntry
  rw [List.reverse_append, List.reverse_cons, List.append_assoc,
    scanPkmBack_append_none post.reverse _
      (fun x hx => hpost x (List.mem_reverse.mp hx))]
  simp [scanPkmBack, he]

/-- `parsePkmModeEntry` returns `none` on logs without a matching record. -/
theorem parsePkmModeEntry_none (entries : List Entry)
    (h : ∀ e ∈ entries, entryMatchesPkm e = false) :
    parsePkmModeEntry entries = none := by
  unfold parsePkmModeEntry
  have := scanPkmBack_append_none entries.reverse []
    (fun x hx => h x (List.mem_reverse.mp hx))
  simpa using this

/-- An empty (whitespace-only) argument routes to the toggle branch. -/
theorem pkmCommandHandler_empty (args : String) (hasUI : Bool) (s : PkmModeState)
    (h : jsTrim args = "") :
    pkmCommandHandler args hasUI s =
      finishToggle { s with enabled := !s.enabled } hasUI := by
  have h2 : jsToLower (jsTrim args) = "" := by rw [h]; rfl
  simp [pkmCommandHandler, h2]

/-- C1: prompt injection is a pure function of the incoming system prompt
and the mode state: with `enabled = false` the system prompt passes through
unchanged, with `enabled = true` the result is the input, a blank-line
separator, and the resolved prompt; determinism holds because
`beforeAgentStart` is a function of the state and the input alone. -/
theorem before_agent_start_pure (state : PkmModeState) (sp : String) :
    (state.enabled = false → beforeAgentStart state sp = sp) ∧
    (state.enabled = true →
      beforeAgentStart state sp = sp ++ "\n\n" ++ state.prompt) ∧
    beforeAgentStart state sp = beforeAgentStart state sp := by
  refine ⟨?_, ?_, rfl⟩ <;> intro h <;> simp [beforeAgentStart, h]

/-- Witness for C1 at a concrete prompt and both states. -/
theorem before_agent_start_pure_witness :
    beforeAgentStart initState "SYS" = "SYS" ∧
    beforeAgentStart { initState with enabled := true } "SYS" =
      "SYS" ++ "\n\n" ++ DEFAULT_PI_PKM_PROMPT :=
  ⟨(before_agent_start_pure initState "SYS").1 rfl,
   (before_agent_start_pure { initState with enabled := true } "SYS").2.1 rfl⟩

/-- C5: the on-words (`on`, `enable`, `enabled`) yield `enabled = true` from
every starting state, and the off-words (`off`, `disable`, `disabled`)
yield `enabled = false`, after trimming and lower-casing the argument. -/
theorem pkm_command_on_off (args : String) (hasUI : Bool) (s : PkmModeState) :
    ((jsToLower (jsTrim args) = "on" ∨ jsToLower (jsTrim args) = "enable" ∨
        jsToLower (jsTrim args) = "enabled") →
      (pkmCommandHandler args hasUI s).1.enabled = true) ∧
    ((jsToLower (jsTrim args) = "off" ∨ jsToLower (jsTrim args) = "disable" ∨
        jsToLower (jsTrim args) = "disabled") →
      (pkmCommandHandler args hasUI s).1.enabled = false) := by
  constructor <;> intro h <;> rcases h with h | h | h <;>
    simp [pkmCommandHandler, h, finishToggle]

/-- Witness for C5: mixed-case `on` and `DISABLE` at the initial state. -/
theorem pkm_command_on_off_witness :
    (pkmCommandHandler " On " true initState).1.enabled = true ∧
    (pkmCommandHandler "DISABLE" false initState).1.enabled = false :=
  ⟨(pkm_command_on_off " On " true initState).1 (Or.inl (by decide)),
   (pkm_command_on_off "DISABLE" false initState).2 (Or.inr (Or.inl (by decide)))⟩

/-- C6: a single empty-argument invocation flips the enabled flag, and two
empty-argument invocations return it to its starting value. -/
theorem pkm_command_toggle_involution (s : PkmModeState) (u1 u2 : Bool)
    (a1 a2 : String) (h1 : jsTrim a1 = "") (h2 : jsTrim a2 = "") :
    (pkmCommandHandler a1 u1 s).1.enabled = !s.enabled ∧
    (pkmCommandHandler a2 u2 (pkmCommandHandler a1 u1 s).1).1.enabled =
      s.enabled := by
  have e1 := pkmCommandHandler_empty a1 u1 s h1
  have e2 := pkmCommandHandler_empty a2 u2 (pkmCommandHandler a1 u1 s).1 h2
  constructor
  · rw [e1]; simp [finishToggle]
  · rw [e2, e1]; simp [finishToggle]

/-- Witness for C6: toggling twice from the initial state with `""` and a
whitespace-only argument. -/
theorem pkm_command_toggle_involution_witness :
    (pkmCommandHandler "" true initState).1.enabled = true ∧
    (pkmCommandHandler "  " true (pkmCommandHandler "" true initState).1).1.enabled =
      false := by
  have h := pkm_command_toggle_involution initState true true "" "  " (by decide) (by decide)
  exact ⟨by rw [h.1]; rfl, by rw [h.2]; rfl⟩

/-- A state with the mode enabled and the built-in prompt, used as the
concrete input for the status and notification examples. -/
def enabledBuiltinState : PkmModeState :=
  { enabled := true, prompt := DEFAULT_PI_PKM_PROMPT,
    promptSource := "builtin-default" }

/-- C9 fails as stated: at `enabled = true`, `promptSource =
"builtin-default"`, the `status` notification message is
`PKM mode enabled. Prompt: builtin-default`, and no notification with the
claimed message `mode enabled. Prompt: builtin-default` is emitted. -/
theorem pkm_command_status_message_counterexample :
    Effect.notify "PKM mode enabled. Prompt: builtin-default" none ∈
      (pkmCommandHandler "status" true enabledBuiltinState).2 ∧
    ¬ (∃ k, Effect.notify "mode enabled. Prompt: builtin-default" k ∈
        (pkmCommandHandler "status" true enabledBuiltinState).2) := by
  have heq : (pkmCommandHandler "status" true enabledBuiltinState).2 =
      [Effect.notify "PKM mode enabled. Prompt: builtin-default" none,
       Effect.setStatus true] := by decide
  constructor
  · rw [heq]; exact List.mem_cons_self _ _
  · rintro ⟨k, hk⟩
    rw [heq] at hk
    simp only [List.mem_cons, List.not_mem_nil, or_false] at hk
    rcases hk with hk | hk
    · injection hk with hmsg _
      exact absurd hmsg (by decide)
    · exact Effect.noConfusion hk

/-- C9 (amended): the `status` command at `enabled = true`, `promptSource =
"builtin-default"` notifies with the message
`PKM mode enabled. Prompt: builtin-default` (the claimed text prefixed with
`PKM `), updates the status indicator, leaves the state unchanged, and
persists nothing (the effect list contains no append). -/
theorem pkm_command_status_report (p : String) :
    pkmCommandHandler "status" true
        { enabled := true, prompt := p, promptSource := "builtin-default" } =
      ({ enabled := true, prompt := p, promptSource := "builtin-default" },
       [Effect.notify "PKM mode enabled. Prompt: builtin-default" none,
        Effect.setStatus true]) := by
  have h : jsToLower (jsTrim "status") = "status" := by decide
  simp [pkmCommandHandler, updateStatusFx, h]

/-- A file system with no readable files at all. -/
def fsEmpty : FS := { pathExists := fun _ => false, read := fun _ => none }

/-- C3: prompt resolution is total and never raises (it is a total function
of the file system and the candidate list, with read failures modelled as
`read = none`); every failing candidate falls through to the next; when no
candidate yields a non-empty extracted block the result is the built-in
default with provenance `builtin-default`; and resolving again yields the
same result. -/
theorem resolve_prompt_total_fallback (fs : FS) (homedir : String)
    (ps : List String) :
    (∀ p rest, tryCandidate fs homedir p = none →
      resolvePiPkmPrompt fs homedir (p :: rest) =
        resolvePiPkmPrompt fs homedir rest) ∧
    ((∀ p ∈ ps, tryCandidate fs homedir p = none) →
      resolvePiPkmPrompt fs homedir ps =
        { prompt := DEFAULT_PI_PKM_PROMPT, source := "builtin-default" }) ∧
    resolvePiPkmPrompt fs homedir ps = resolvePiPkmPrompt fs homedir ps := by
  refine ⟨?_, ?_, rfl⟩
  · intro p rest h
    simp [resolvePiPkmPrompt, h]
  · induction ps with
    | nil => intro _; rfl
    | cons p rest ih =>
      intro h
      have hp := h p (List.mem_cons_self p rest)
      simp [resolvePiPkmPrompt, hp,
        ih (fun x hx => h x (List.mem_cons_of_mem p hx))]

/-- Witness for C3: on an empty file system every candidate fails and the
default is returned. -/
theorem resolve_prompt_total_fallback_witness :
    resolvePiPkmPrompt fsEmpty "/home/u" ["~/prompts.py", "other.py"] =
      { prompt := DEFAULT_PI_PKM_PROMPT, source := "builtin-default" } :=
  (resolve_prompt_total_fallback fsEmpty "/home/u" ["~/prompts.py", "other.py"]).2.1
    (fun p _ => by simp [tryCandidate, fsEmpty])

/-- A successful candidate carries a non-empty prompt (the
`extractedPrompt.length > 0` guard). -/
theorem tryCandidate_prompt_pos (fs : FS) (homedir p : String)
    (r : ResolvedPiPkmPrompt) (h : tryCandidate fs homedir p = some r) :
    0 < r.prompt.length := by
  simp only [tryCandidate] at h
  split at h
  · split at h
    · split at h
      · split at h
        · cases h
          assumption
        · exact absurd h (by simp)
      · exact absurd h (by simp)
    · exact absurd h (by simp)
  · exact absurd h (by simp)

/-- The resolved prompt is never the empty string. -/
theorem resolve_prompt_ne_empty (fs : FS) (homedir : String) (ps : List String) :
    (resolvePiPkmPrompt fs homedir ps).prompt ≠ "" := by
  induction ps with
  | nil =>
    show DEFAULT_PI_PKM_PROMPT ≠ ""
    decide
  | cons p rest ih =>
    cases hc : tryCandidate fs homedir p with
    | none => simpa [resolvePiPkmPrompt, hc] using ih
    | some r =>
      have hr := (string_pos_iff_ne_empty r.prompt).mp
        (tryCandidate_prompt_pos fs homedir p r hc)
      simpa [resolvePiPkmPrompt, hc] using hr

/-- The command handler never changes the prompt text. -/
theorem pkmCommandHandler_prompt_const (args : String) (hasUI : Bool)
    (s : PkmModeState) :
    (pkmCommandHandler args hasUI s).1.prompt = s.prompt := by
  simp only [pkmCommandHandler]
  split_ifs <;> simp [finishToggle]

/-- Session start installs exactly the freshly resolved prompt text. -/
theorem sessionStart_prompt (fs : FS) (homedir : String) (pkmFlag : Bool)
    (ppf : Option String) (entries : List Entry) (s : PkmModeState) :
    (sessionStart fs homedir pkmFlag ppf entries s).prompt =
      (resolvePiPkmPrompt fs homedir (resolvePromptPaths homedir ppf)).prompt := by
  simp only [sessionStart]
  cases parsePkmModeEntry entries <;> cases pkmFlag <;> simp

/-- C8: the state invariant is preserved by every operation: `enabled` is a
definite boolean by the type of `PkmModeState`; the prompt text is non-empty
initially, is never changed by the command handler, is non-empty after
every session start, and prompt resolution always yields a non-empty prompt
(falling back to the built-in constant). -/
theorem pkm_state_invariant :
    initState.prompt ≠ "" ∧
    (∀ args hasUI s, s.prompt ≠ "" →
      (pkmCommandHandler args hasUI s).1.prompt ≠ "") ∧
    (∀ fs homedir pkmFlag ppf entries s,
      (sessionStart fs homedir pkmFlag ppf entries s).prompt ≠ "") ∧
    (∀ fs homedir ps, (resolvePiPkmPrompt fs homedir ps).prompt ≠ "") := by
  refine ⟨by decide, ?_, ?_, resolve_prompt_ne_empty⟩
  · intro args hasUI s hs
    rw [pkmCommandHandler_prompt_const]
    exact hs
  · intro fs homedir pkmFlag ppf entries s
    rw [sessionStart_prompt]
    exact resolve_prompt_ne_empty fs homedir _

/-- Witness for C8 at a concrete command invocation. -/
theorem pkm_state_invariant_witness :
    (pkmCommandHandler "on" true initState).1.prompt ≠ "" :=
  pkm_state_invariant.2.1 "on" true initState (by decide)

/-- C2: session-start reconciliation applies the `--pkm` flag first and the
persisted log second: when the most recent pkm-mode record carries
`{enabled: false}`, the final state is disabled even though the flag
requested enabling; when no pkm-mode record exists, the flag-seeded value
is kept. -/
theorem session_start_reconciliation (fs : FS) (homedir : String)
    (ppf : Option String) (s : PkmModeState) :
    (∀ pre post e, entryMatchesPkm e = true → entryEnabledValue e = some false →
      (∀ x ∈ post, entryMatchesPkm x = false) →
      (sessionStart fs homedir true ppf (pre ++ e :: post) s).enabled = false) ∧
    (∀ pkmFlag entries, (∀ x ∈ entries, entryMatchesPkm x = false) →
      (sessionStart fs homedir pkmFlag ppf entries s).enabled =
        (if pkmFlag then true else s.enabled)) := by
  constructor
  · intro pre post e he hv hpost
    have hp := parsePkmModeEntry_last_match pre post e he hpost
    rw [hv] at hp
    simp [sessionStart, hp]
  · intro pkmFlag entries h
    have hp := parsePkmModeEntry_none entries h
    cases pkmFlag <;> simp [sessionStart, hp]

/-- Witness for C2: a persisted `{enabled: false}` record overrides the
`--pkm` flag; an empty log keeps the flag-seeded value. -/
theorem session_start_reconciliation_witness :
    (sessionStart fsEmpty "/home/u" true none [mkPkmEntry false] initState).enabled =
      false ∧
    (sessionStart fsEmpty "/home/u" true none [] initState).enabled = true := by
  constructor
  · exact (session_start_reconciliation fsEmpty "/home/u" none initState).1
      [] [] (mkPkmEntry false) (by decide) (by decide) (by simp)
  · have h := (session_start_reconciliation fsEmpty "/home/u" none initState).2
      true [] (by simp)
    simpa using h

/-- C4: a non-keyword, non-empty argument (after trimming and
lower-casing) enables the mode, persists `{enabled: true}`, and forwards
exactly the trimmed argument text, original case preserved, as a new user
message. -/
theorem pkm_command_free_text (args : String) (hasUI : Bool) (s : PkmModeState)
    (hne : jsToLower (jsTrim args) ≠ "")
    (hkw : jsToLower (jsTrim args) ∉
      (["status", "on", "enable", "enabled", "off", "disable", "disabled"] :
        List String)) :
    (pkmCommandHandler args hasUI s).1.enabled = true ∧
    Effect.appendEntry "pkm-mode" true ∈ (pkmCommandHandler args hasUI s).2 ∧
    Effect.sendUserMessage (jsTrim args) ∈ (pkmCommandHandler args hasUI s).2 := by
  simp only [List.mem_cons, List.not_mem_nil, or_false, not_or] at hkw
  obtain ⟨h1, h2, h3, h4, h5, h6, h7⟩ := hkw
  have hlen : 0 < (jsToLower (jsTrim args)).length :=
    (string_pos_iff_ne_empty _).mpr hne
  simp only [pkmCommandHandler]
  rw [if_neg h1, if_neg (by tauto), if_neg (by tauto), if_pos hlen]
  refine ⟨rfl, ?_, ?_⟩ <;> cases hasUI <;> simp [updateStatusFx]

/-- Witness for C4 at the free-text argument `" Hello World "`. -/
theorem pkm_command_free_text_witness :
    (pkmCommandHandler " Hello World " true initState).1.enabled = true ∧
    Effect.appendEntry "pkm-mode" true ∈
      (pkmCommandHandler " Hello World " true initState).2 ∧
    Effect.sendUserMessage "Hello World" ∈
      (pkmCommandHandler " Hello World " true initState).2 := by
  have h := pkm_command_free_text " Hello World " true initState
    (by decide) (by decide)
  have ht : jsTrim " Hello World " = "Hello World" := by decide
  rw [ht] at h
  exact h

/-- C7 fails as stated: after the state-changing `off` branch (with a UI
present and prompt source `builtin-default`), no notification message
mentions the prompt source — the only notification is the fixed text
`PKM mode disabled`. -/
theorem pkm_command_off_notification_counterexample :
    ¬ ∃ msg k, Effect.notify msg k ∈
        (pkmCommandHandler "off" true enabledBuiltinState).2 ∧
      "builtin-default".data <:+: msg.data := by
  rintro ⟨msg, k, hmem, hinf⟩
  have heq : (pkmCommandHandler "off" true enabledBuiltinState).2 =
      [Effect.appendEntry "pkm-mode" false, Effect.setStatus false,
       Effect.notify "PKM mode disabled" (some "info")] := by decide
  rw [heq] at hmem
  simp only [List.mem_cons, List.not_mem_nil, or_false] at hmem
  rcases hmem with h | h | h
  · exact Effect.noConfusion h
  · exact Effect.noConfusion h
  · injection h with hmsg _
    subst hmsg
    exact absurd hinf (by decide)

/-- C7 (amended): after every state-changing branch (with a UI present) the
handler persists the new boolean as a pkm-mode entry, updates the host
status indicator, and notifies the user of the resulting state; the
notification names the prompt source only when the resulting state is
enabled — the disabled notification is the fixed text `PKM mode
disabled`. -/
theorem pkm_command_state_change_effects (args : String) (s : PkmModeState)
    (h : jsToLower (jsTrim args) ≠ "status") :
    Effect.appendEntry "pkm-mode" (pkmCommandHandler args true s).1.enabled ∈
      (pkmCommandHandler args true s).2 ∧
    Effect.setStatus (pkmCommandHandler args true s).1.enabled ∈
      (pkmCommandHandler args true s).2 ∧
    Effect.notify
      (if (pkmCommandHandler args true s).1.enabled then
        "PKM mode enabled (" ++ s.promptSource ++ ")"
       else "PKM mode disabled") (some "info") ∈
      (pkmCommandHandler args true s).2 := by
  have key : ∀ s' : PkmModeState,
      Effect.appendEntry "pkm-mode" (finishToggle s' true).1.enabled ∈
        (finishToggle s' true).2 ∧
      Effect.setStatus (finishToggle s' true).1.enabled ∈
        (finishToggle s' true).2 ∧
      Effect.notify
        (if (finishToggle s' true).1.enabled then
          "PKM mode enabled (" ++ s'.promptSource ++ ")"
         else "PKM mode disabled") (some "info") ∈ (finishToggle s' true).2 := by
    intro s'
    cases he : s'.enabled <;> simp [finishToggle, updateStatusFx, he]
  by_cases h1 : jsToLower (jsTrim args) = "on" ∨
      jsToLower (jsTrim args) = "enable" ∨ jsToLower (jsTrim args) = "enabled"
  · have hh : pkmCommandHandler args true s =
        finishToggle { s with enabled := true } true := by
      simp only [pkmCommandHandler]
      rw [if_neg h, if_pos h1]
    rw [hh]
    exact key _
  · by_cases h2 : jsToLower (jsTrim args) = "off" ∨
        jsToLower (jsTrim args) = "disable" ∨ jsToLower (jsTrim args) = "disabled"
    · have hh : pkmCommandHandler args true s =
          finishToggle { s with enabled := false } true := by
        simp only [pkmCommandHandler]
        rw [if_neg h, if_neg h1, if_pos h2]
      rw [hh]
      exact key _
    · by_cases h3 : 0 < (jsToLower (jsTrim args)).length
      · have hh : pkmCommandHandler args true s =
            ({ s with enabled := true },
             [Effect.appendEntry "pkm-mode" true] ++ updateStatusFx true true ++
             [Effect.notify ("PKM mode enabled (" ++ s.promptSource ++ ")")
               (some "info")] ++
             [Effect.sendUserMessage (jsTrim args)]) := by
          simp only [pkmCommandHandler]
          rw [if_neg h, if_neg h1, if_neg h2, if_pos h3]
          simp
        rw [hh]
        simp [updateStatusFx]
      · have hh : pkmCommandHandler args true s =
            finishToggle { s with enabled := !s.enabled } true := by
          simp only [pkmCommandHandler]
          rw [if_neg h, if_neg h1, if_neg h2, if_neg h3]
        rw [hh]
        exact key _

/-- Witness for C7 (amended) at the `off` branch from the initial state. -/
theorem pkm_command_state_change_effects_witness :
    Effect.appendEntry "pkm-mode" (pkmCommandHandler "off" true initState).1.enabled ∈
      (pkmCommandHandler "off" true initState).2 ∧
    Effect.setStatus (pkmCommandHandler "off" true initState).1.enabled ∈
      (pkmCommandHandler "off" true initState).2 ∧
    Effect.notify
      (if (pkmCommandHandler "off" true initState).1.enabled then
        "PKM mode enabled (" ++ initState.promptSource ++ ")"
       else "PKM mode disabled") (some "info") ∈
      (pkmCommandHandler "off" true initState).2 :=
  pkm_command_state_change_effects "off" initState (by decide)

/-- C10: persisting then parsing round-trips: appending a custom
`pkm-mode` entry with data `{enabled: b}` to any log and parsing returns
`b`; in general the backward scan adopts exactly the most recent matching
record — the result is that record's `enabled` reading (in particular
`none` when the field is missing or non-boolean), independent of every
earlier record. -/
theorem parse_persist_round_trip :
    (∀ entries b, parsePkmModeEntry (entries ++ [mkPkmEntry b]) = some b) ∧
    (∀ pre e post, entryMatchesPkm e = true →
      (∀ x ∈ post, entryMatchesPkm x = false) →
      parsePkmModeEntry (pre ++ e :: post) = entryEnabledValue e) := by
  constructor
  · intro entries b
    have h := parsePkmModeEntry_last_match entries [] (mkPkmEntry b)
      (by simp [entryMatchesPkm, mkPkmEntry]) (by simp)
    simpa using h
  · intro pre e post he hpost
    exact parsePkmModeEntry_last_match pre post e he hpost

/-- Witness for C10: a round trip on a one-entry log, and a most-recent
record with a non-boolean `enabled` field masking an earlier valid
record. -/
theorem parse_persist_round_trip_witness :
    parsePkmModeEntry [mkPkmEntry true] = some true ∧
    parsePkmModeEntry [mkPkmEntry false,
      { etype := some "custom", customType := some "pkm-mode",
        data := EntryData.obj (some EnabledField.nonBool) }] = none := by
  constructor
  · exact parse_persist_round_trip.1 [] true
  · exact parse_persist_round_trip.2 [mkPkmEntry false]
      { etype := some "custom", customType := some "pkm-mode",
        data := EntryData.obj (some EnabledField.nonBool) } []
      (by decide) (by simp)
